import Mathlib

/-!
Verification of the block-wise multi-raster aggregation engine of the
Risk-Mapper QGIS plugin: the shared logic of `frequency_summation.py`,
`monthly_frequency.py` and `seasonal_frequency.py`.

The embedding below is a shallow model of the Python source:
* numpy integer arrays are modelled by `Int`/`Nat` with explicit wrap
  (`% 2^32` where the code casts to `np.uint32`);
* float32/float64 pixel values and GDAL nodata values are modelled by `ℚ`
  (exact field arithmetic; the claims at stake concern masking and control
  flow, not rounding);
* GDAL raster handles are records carrying dimensions, geotransform,
  projection, nodata and a pixel function; a windowed read
  (`band.ReadAsArray(x, y, w, h)`) fails exactly when the window exceeds
  the raster bounds, as GDAL does (it returns `None`, on which the
  subsequent `.astype` raises);
* the processing loops become structurally recursive functions over
  `Except String`, aborting at the first raised exception.
-/

namespace RiskMapper

/-- Python `range(0, stop, step)`: the multiples of `step` below `stop`,
in increasing order. -/
def pyRange (stop step : Nat) : List Nat :=
  (List.range ((stop + step - 1) / step)).map (fun k => k * step)

/-- A rectangular tile of the output grid: origin `(x, y)` and size
`(w, h)`, exactly as produced by the block loops of the three
aggregation algorithms. -/
structure Tile where
  x : Nat
  y : Nat
  w : Nat
  h : Nat
deriving DecidableEq, Repr

/-- The tile list of the block loop
(`for y in range(0, rows, bs): for x in range(0, cols, bs)` with
`ysize = min(bs, rows - y)`, `xsize = min(bs, cols - x)`), in the order
the loop visits them (row-major). -/
def tiles (cols rows bs : Nat) : List Tile :=
  (pyRange rows bs).flatMap (fun y =>
    (pyRange cols bs).map (fun x =>
      ⟨x, y, min bs (cols - x), min bs (rows - y)⟩))

/-- Pixel `(i, j)` lies inside tile `t`. -/
def Tile.contains (t : Tile) (i j : Nat) : Prop :=
  t.x ≤ i ∧ i < t.x + t.w ∧ t.y ≤ j ∧ j < t.y + t.h

instance (t : Tile) (i j : Nat) : Decidable (t.contains i j) := by
  unfold Tile.contains; infer_instance

/-- The cast `astype(np.uint32)` on an integer pixel value: numpy wraps modulo 2^32. -/
def toU32 (v : Int) : Nat :=
  (v % 4294967296).toNat

/-- One pixel's contribution in the flat-summation path
(`frequency_summation.py` lines 171-181): the pixel is first cast to
`np.uint32`, then compared against the raster's declared nodata value
(`data[data == nodata] = 0`; numpy promotes the `uint32` data and the
float nodata scalar to a common type, so the comparison is exact value
equality of the wrapped pixel with the nodata scalar). -/
def sumContrib (nodata : Option ℚ) (v : Int) : Nat :=
  let u := toU32 v
  match nodata with
  | none => u
  | some q => if (u : ℚ) = q then 0 else u

/-- One pixel's contribution in the monthly/seasonal paths
(`monthly_frequency.py` lines 120-127, `seasonal_frequency.py` lines
216-225): the pixel is cast to float32 and compared against the nodata
value; a match is substituted with zero before accumulation. -/
def freqContrib (nodata : Option ℚ) (v : ℚ) : ℚ :=
  match nodata with
  | none => v
  | some q => if v = q then 0 else v

/-- The output datatypes offered by `frequency_summation.py`
(`gdal_dtype_map`, lines 116-124). -/
inductive OutDType where
  | byte | uint16 | uint32 | int16 | int32 | float32 | float64
deriving DecidableEq, Repr

/-- The final per-tile cast of the flat-summation path
(`frequency_summation.py` lines 183-197): `np.clip` to the output
type's range for the integer types, direct numeric cast for the float
types.  The accumulated value `v` is a `uint32` cell of `block_sum`,
hence a natural number; `np.clip(v, lo, hi)` is `min (max v lo) hi`
after promotion to a common signed type, and the following `.astype`
is exact because the clipped value is in range.  Float rounding is
abstracted (float32/float64 casts are value-preserving here). -/
def castOut (dt : OutDType) (v : Nat) : Int :=
  match dt with
  | .byte    => min (max (v : Int) 0) 255
  | .uint16  => min (max (v : Int) 0) 65535
  | .uint32  => min (max (v : Int) 0) 4294967295
  | .int16   => min (max (v : Int) (-32768)) 32767
  | .int32   => min (max (v : Int) (-2147483648)) 2147483647
  | .float32 => (v : Int)
  | .float64 => (v : Int)

/-- A single-band source raster as exposed by GDAL: pixel dimensions,
affine geotransform, projection string, optional nodata value, and the
pixel grid itself (parameterised by the numeric type of the band). -/
structure SrcRaster (α : Type) where
  cols : Nat
  rows : Nat
  geo : ℚ × ℚ × ℚ × ℚ × ℚ × ℚ
  proj : String
  nodata : Option ℚ
  pix : Nat → Nat → α

/-- Windowed read `band.ReadAsArray(x, y, w, h)`: succeeds with the sub-grid iff the
requested window lies inside the raster; an out-of-range window makes
GDAL return `None`, on which the source immediately crashes
(`.astype` on `None`), so the read is modelled as fallible. -/
def readWindow {α : Type} (r : SrcRaster α) (x y w h : Nat) :
    Option (Nat → Nat → α) :=
  if x + w ≤ r.cols ∧ y + h ≤ r.rows then
    some (fun i j => r.pix (x + i) (y + j))
  else none

/-- The inner contributor loop of `frequency_summation.py` (lines 171-181)
for one tile, carrying the `block_sum` accumulator: read the window of
each raster, substitute nodata by zero after the `uint32` cast, and add
into the `uint32` accumulator (`block_sum += data` wraps modulo 2^32 at
every step); a failed read aborts the run. -/
def sumLoop (t : Tile) : (Nat → Nat → Nat) → List (SrcRaster Int) →
    Except String (Nat → Nat → Nat)
  | acc, [] => .ok acc
  | acc, r :: rest =>
      match readWindow r t.x t.y t.w t.h with
      | none => .error "ReadAsArray window out of range"
      | some data =>
          sumLoop t
            (fun i j => (acc i j + sumContrib r.nodata (data i j)) % 4294967296)
            rest

/-- One tile of the flat-summation block loop, started from the
zero-initialised `block_sum`. -/
def sumTile (rasters : List (SrcRaster Int)) (t : Tile) :
    Except String (Nat → Nat → Nat) :=
  sumLoop t (fun _ _ => 0) rasters

/-- The inner contributor loop of `monthly_frequency.py` (lines 120-128)
for one tile: float32 accumulation with nodata substituted by zero. -/
def monthlyLoop (t : Tile) : (Nat → Nat → ℚ) → List (SrcRaster ℚ) →
    Except String (Nat → Nat → ℚ)
  | acc, [] => .ok acc
  | acc, r :: rest =>
      match readWindow r t.x t.y t.w t.h with
      | none => .error "ReadAsArray window out of range"
      | some data =>
          monthlyLoop t (fun i j => acc i j + freqContrib r.nodata (data i j)) rest

/-- One tile of the monthly block loop, started from the zero-initialised
`block_sum`. -/
def monthlyTile (rasters : List (SrcRaster ℚ)) (t : Tile) :
    Except String (Nat → Nat → ℚ) :=
  monthlyLoop t (fun _ _ => 0) rasters

/-- The inner contributor loop of `seasonal_frequency.py` (lines 216-228)
for one tile: like the monthly one, but the contributor list may hold
`None` placeholders for missing months, which execute `block_sum += 0`. -/
def seasonalLoop (t : Tile) : (Nat → Nat → ℚ) → List (Option (SrcRaster ℚ)) →
    Except String (Nat → Nat → ℚ)
  | acc, [] => .ok acc
  | acc, some r :: rest =>
      match readWindow r t.x t.y t.w t.h with
      | none => .error "ReadAsArray window out of range"
      | some data =>
          seasonalLoop t (fun i j => acc i j + freqContrib r.nodata (data i j)) rest
  | acc, none :: rest => seasonalLoop t (fun i j => acc i j + 0) rest

/-- One tile of the seasonal block loop, started from the zero-initialised
`block_sum`. -/
def seasonalTile (files : List (Option (SrcRaster ℚ))) (t : Tile) :
    Except String (Nat → Nat → ℚ) :=
  seasonalLoop t (fun _ _ => 0) files

/-- The tile loop of `SummationAlgorithm.processAlgorithm` (lines 164-201),
accumulating the `WriteArray` calls performed; each tile's accumulated
block is cast to the output datatype just before the write. -/
def sumWriteLoop (dt : OutDType) (rasters : List (SrcRaster Int)) :
    List (Tile × (Nat → Nat → Int)) → List Tile →
    Except String (List (Tile × (Nat → Nat → Int)))
  | ws, [] => .ok ws
  | ws, t :: ts =>
      match sumTile rasters t with
      | .error e => .error e
      | .ok acc =>
          sumWriteLoop dt rasters (ws ++ [(t, fun i j => castOut dt (acc i j))]) ts

/-- Result of one run of `SummationAlgorithm.processAlgorithm`: the output
raster's shape and georeferencing (taken from the first raster found,
lines 143-149) and the sequence of tile writes (`WriteArray`) performed. -/
structure SumRun where
  cols : Nat
  rows : Nat
  geo : ℚ × ℚ × ℚ × ℚ × ℚ × ℚ
  proj : String
  writes : List (Tile × (Nat → Nat → Int))

/-- Run of `SummationAlgorithm.processAlgorithm` (lines 131-204): fail when no
raster was found; otherwise take shape/geotransform/projection from the
first raster, then run the block loop over all tiles, casting each
accumulated tile to the requested output type before writing it.
`cancel` models the caller's cancellation signal (`feedback`), indexed
by poll opportunity; the source never consults `feedback.isCanceled()`
inside `processAlgorithm`, so the signal is never read. -/
def runSummation (dt : OutDType) (cancel : Nat → Bool)
    (rasters : List (SrcRaster Int)) : Except String SumRun :=
  match rasters with
  | [] => .error "No TIFF files found under the input folder."
  | r0 :: _ =>
      Except.map (fun ws => ⟨r0.cols, r0.rows, r0.geo, r0.proj, ws⟩)
        (sumWriteLoop dt rasters [] (tiles r0.cols r0.rows 512))

/-- One position of the `re.search` scan of the fixed-shape pattern `\d{4}-(\d{2})-\d{2}` tried at
one position: the next ten characters must be four digits, a dash, two
digits, a dash, two digits; on success return (year digits, month
digits), the regex's captured groups. -/
def matchDateAt (cs : List Char) : Option (String × String) :=
  match cs with
  | y1 :: y2 :: y3 :: y4 :: s1 :: m1 :: m2 :: s2 :: d1 :: d2 :: _ =>
      if y1.isDigit ∧ y2.isDigit ∧ y3.isDigit ∧ y4.isDigit ∧ s1 = '-' ∧
         m1.isDigit ∧ m2.isDigit ∧ s2 = '-' ∧ d1.isDigit ∧ d2.isDigit then
        some (String.mk [y1, y2, y3, y4], String.mk [m1, m2])
      else none
  | _ => none

/-- The scan of `re.search`: it tries positions left to right and stops at the first one
where the pattern matches; since the pattern has fixed length, the
leftmost match is the first position whose ten-character window fits. -/
def searchDate : List Char → Option (String × String)
  | [] => none
  | c :: rest =>
      match matchDateAt (c :: rest) with
      | some ym => some ym
      | none => searchDate rest

/-- Month classification of `monthly_frequency.py` (lines 75-88):
`re.search(r"\d\x7b4\x7d-(\d\x7b2\x7d)-\d\x7b2\x7d", fname)` and on a
match `month = match.group(1)`; on no match the file is skipped. -/
def classifyMonth (s : String) : Option String :=
  (searchDate s.data).map (fun ym => ym.2)

/-- Python `int()` on a string of decimal digits. -/
def digitsToNat (s : String) : Nat :=
  s.data.foldl (fun n c => 10 * n + (c.toNat - 48)) 0

/-- Function `extract_year_month` of `seasonal_frequency.py` (lines 131-135):
the year as an integer and the month as a two-digit string. -/
def extractYearMonth (s : String) : Option (Nat × String) :=
  (searchDate s.data).map (fun ym => (digitsToNat ym.1, ym.2))

/-- An observation of the seasonal pipeline: `(year, month, path)`. -/
abbrev Obs := Nat × String × String

/-- A `defaultdict(list)` update `m[k].append(v)`: keys keep first-insertion
order, values keep append order. -/
def addToBucket {K V : Type} [DecidableEq K]
    (m : List (K × List V)) (k : K) (v : V) : List (K × List V) :=
  match m with
  | [] => [(k, [v])]
  | (k1, vs) :: rest =>
      if k1 = k then (k1, vs ++ [v]) :: rest
      else (k1, vs) :: addToBucket rest k v

/-- The sort `rasters.sort(key=lambda x: (x[0], int(x[1])))` of
`seasonal_frequency.py` line 150: a stable sort by (year, numeric month). -/
def obsLe (a b : Obs) : Prop :=
  a.1 < b.1 ∨ (a.1 = b.1 ∧ digitsToNat a.2.1 ≤ digitsToNat b.2.1)

instance : DecidableRel obsLe := fun a b => by
  unfold obsLe; infer_instance

/-- Sort the observation list by (year, numeric month), stably. -/
def sortObs (l : List Obs) : List Obs :=
  List.insertionSort obsLe l

/-- The season-year decision of `seasonal_frequency.py` lines 155-163:
`first_month = int(season_months[0])`; an observation of month `m` in
year `y` belongs to season-year `y` when `int(m) ≥ first_month`, and to
season-year `y - 1` otherwise. -/
def assignSeasonYear (seasonMonths : List String) (y : Nat) (m : String) : Int :=
  if digitsToNat m ≥ digitsToNat (seasonMonths.headD "") then (y : Int)
  else (y : Int) - 1

/-- The `season_raster_map` construction (lines 153-164): for each season, for
each observation (in sorted order) whose month token appears in the
season's month list, append it under key `(season_year, season_name)`. -/
def buildSeasonRasterMap (seasons : List (String × List String))
    (rasters : List Obs) : List ((Int × String) × List Obs) :=
  seasons.foldl (fun m s =>
    rasters.foldl (fun m o =>
      if o.2.1 ∈ s.2 then
        addToBucket m (assignSeasonYear s.2 o.1 o.2.1, s.1) o
      else m) m) []

/-- The `final_files` construction (lines 173-184): iterate the season's month
sequence in order; for each month take the first `(y, f)` of
`month_files` whose month equals it (`next(..., None)`), else `None`. -/
def buildFinalFiles (months : List String) (monthFiles : List Obs) :
    List (Option String) :=
  months.map (fun m =>
    (monthFiles.find? (fun o => o.2.1 = m)).map (fun o => o.2.2))

/-- Result of processing one month in `MonthlyFrequencyAlgorithm`:
the month key, output shape, and the tile writes performed. -/
structure MonRun where
  month : String
  cols : Nat
  rows : Nat
  writes : List (Tile × (Nat → Nat → ℚ))

/-- The `rasters_by_month` construction (`monthly_frequency.py` lines 74-88):
files whose name matches the date pattern are appended under their
two-digit month key; the rest are skipped with a report only. -/
def groupByMonth (inputs : List (String × SrcRaster ℚ)) :
    List (String × List (SrcRaster ℚ)) :=
  inputs.foldl (fun m p =>
    match classifyMonth p.1 with
    | some k => addToBucket m k p.2
    | none => m) []

/-- The tile loop processing one month's output raster
(`monthly_frequency.py` lines 114-130). -/
def monthlyWriteLoop (rasters : List (SrcRaster ℚ)) :
    List (Tile × (Nat → Nat → ℚ)) → List Tile →
    Except String (List (Tile × (Nat → Nat → ℚ)))
  | ws, [] => .ok ws
  | ws, t :: ts =>
      match monthlyTile rasters t with
      | .error e => .error e
      | .ok acc => monthlyWriteLoop rasters (ws ++ [(t, acc)]) ts

/-- The outer loop of `MonthlyFrequencyAlgorithm.processAlgorithm`
(lines 91-134): one output per month group, in sorted key order; a month
with an empty raster list is skipped (`continue`). -/
def monthlyRunLoop : List MonRun → List (String × List (SrcRaster ℚ)) →
    Except String (List MonRun)
  | outs, [] => .ok outs
  | outs, g :: gs =>
      match g.2 with
      | [] => monthlyRunLoop outs gs
      | r0 :: _ =>
          match monthlyWriteLoop g.2 [] (tiles r0.cols r0.rows 512) with
          | .error e => .error e
          | .ok ws => monthlyRunLoop (outs ++ [⟨g.1, r0.cols, r0.rows, ws⟩]) gs

/-- Run of `MonthlyFrequencyAlgorithm.processAlgorithm` (lines 65-146): group the
input files by month key, process each month in sorted key order with
the float32 block loop, and finish successfully — there is no check
that any raster was found at all, and `feedback.isCanceled()` is never
consulted, so `cancel` is never read. -/
def runMonthly (cancel : Nat → Bool) (inputs : List (String × SrcRaster ℚ)) :
    Except String (List MonRun) :=
  monthlyRunLoop [] (List.insertionSort (fun a b => a.1 ≤ b.1) (groupByMonth inputs))

/-- Did the run terminate without raising? -/
def exceptOk {ε α : Type} : Except ε α → Bool
  | .ok _ => true
  | .error _ => false

/-- Number of tile writes of a summation run, `none` when it raised. -/
def sumWriteCount (e : Except String SumRun) : Option Nat :=
  match e with
  | .ok o => some o.writes.length
  | .error _ => none

/-- Number of monthly outputs produced, `none` when the run raised. -/
def monthlyOutCount (e : Except String (List MonRun)) : Option Nat :=
  match e with
  | .ok outs => some outs.length
  | .error _ => none


/-! ### Properties of the tile partition -/

lemma lt_ceilDiv_iff {stop step k : Nat} (hs : 0 < step) :
    k < (stop + step - 1) / step ↔ k * step < stop := by
  rw [Nat.lt_iff_add_one_le, Nat.le_div_iff_mul_le hs, add_one_mul]
  generalize k * step = a
  omega

lemma mem_pyRange {stop step : Nat} (hs : 0 < step) {n : Nat} :
    n ∈ pyRange stop step ↔ ∃ k, n = k * step ∧ k * step < stop := by
  unfold pyRange
  simp only [List.mem_map, List.mem_range]
  constructor
  · rintro ⟨k, hk, rfl⟩
    exact ⟨k, rfl, (lt_ceilDiv_iff hs).1 hk⟩
  · rintro ⟨k, rfl, hk⟩
    exact ⟨k, (lt_ceilDiv_iff hs).2 hk, rfl⟩

lemma mem_tiles_iff {cols rows bs : Nat} (hbs : 0 < bs) {t : Tile} :
    t ∈ tiles cols rows bs ↔
      ∃ kx ky, kx * bs < cols ∧ ky * bs < rows ∧
        t = ⟨kx * bs, ky * bs, min bs (cols - kx * bs), min bs (rows - ky * bs)⟩ := by
  unfold tiles
  simp only [List.mem_flatMap, List.mem_map]
  constructor
  · rintro ⟨y, hy, x, hx, rfl⟩
    obtain ⟨ky, rfl, hky⟩ := (mem_pyRange hbs).1 hy
    obtain ⟨kx, rfl, hkx⟩ := (mem_pyRange hbs).1 hx
    exact ⟨kx, ky, hkx, hky, rfl⟩
  · rintro ⟨kx, ky, hkx, hky, rfl⟩
    exact ⟨ky * bs, (mem_pyRange hbs).2 ⟨ky, rfl, hky⟩,
      kx * bs, (mem_pyRange hbs).2 ⟨kx, rfl, hkx⟩, rfl⟩

lemma tiles_bounds {cols rows bs : Nat} (hbs : 0 < bs) {t : Tile}
    (ht : t ∈ tiles cols rows bs) :
    t.w ≤ bs ∧ t.h ≤ bs ∧ t.x + t.w ≤ cols ∧ t.y + t.h ≤ rows ∧
      0 < t.w ∧ 0 < t.h := by
  obtain ⟨kx, ky, hkx, hky, rfl⟩ := (mem_tiles_iff hbs).1 ht
  simp only
  omega

lemma tile_of_contains {cols rows bs : Nat} (hbs : 0 < bs) {t : Tile} {i j : Nat}
    (ht : t ∈ tiles cols rows bs) (hc : t.contains i j) :
    t.x = i / bs * bs ∧ t.y = j / bs * bs := by
  obtain ⟨kx, ky, hkx, hky, rfl⟩ := (mem_tiles_iff hbs).1 ht
  obtain ⟨h1, h2, h3, h4⟩ := hc
  simp only at h1 h2 h3 h4 ⊢
  have hxlt : i < (kx + 1) * bs := by rw [add_one_mul]; omega
  have hylt : j < (ky + 1) * bs := by rw [add_one_mul]; omega
  have hix : i / bs = kx := by
    have hlo : kx ≤ i / bs := (Nat.le_div_iff_mul_le hbs).2 h1
    have hhi : i / bs < kx + 1 := (Nat.div_lt_iff_lt_mul hbs).2 hxlt
    omega
  have hjy : j / bs = ky := by
    have hlo : ky ≤ j / bs := (Nat.le_div_iff_mul_le hbs).2 h3
    have hhi : j / bs < ky + 1 := (Nat.div_lt_iff_lt_mul hbs).2 hylt
    omega
  rw [hix, hjy]
  exact ⟨rfl, rfl⟩

lemma tiles_disjoint {cols rows bs : Nat} (hbs : 0 < bs) {t1 t2 : Tile} {i j : Nat}
    (h1 : t1 ∈ tiles cols rows bs) (h2 : t2 ∈ tiles cols rows bs)
    (hc1 : t1.contains i j) (hc2 : t2.contains i j) : t1 = t2 := by
  obtain ⟨hx1, hy1⟩ := tile_of_contains hbs h1 hc1
  obtain ⟨hx2, hy2⟩ := tile_of_contains hbs h2 hc2
  obtain ⟨kx1, ky1, _, _, rfl⟩ := (mem_tiles_iff hbs).1 h1
  obtain ⟨kx2, ky2, _, _, rfl⟩ := (mem_tiles_iff hbs).1 h2
  simp only at hx1 hy1 hx2 hy2
  have ex : kx1 * bs = kx2 * bs := by rw [hx1, hx2]
  have ey : ky1 * bs = ky2 * bs := by rw [hy1, hy2]
  simp only [Tile.mk.injEq, ex, ey]

lemma tiles_cover {cols rows bs : Nat} (hbs : 0 < bs) {i j : Nat}
    (hi : i < cols) (hj : j < rows) :
    ∃ t ∈ tiles cols rows bs, t.contains i j := by
  refine ⟨⟨i / bs * bs, j / bs * bs, min bs (cols - i / bs * bs),
            min bs (rows - j / bs * bs)⟩,
    (mem_tiles_iff hbs).2 ⟨i / bs, j / bs,
      lt_of_le_of_lt (Nat.div_mul_le_self i bs) hi,
      lt_of_le_of_lt (Nat.div_mul_le_self j bs) hj, rfl⟩, ?_⟩
  have hxle : i / bs * bs ≤ i := Nat.div_mul_le_self i bs
  have hxlt : i < (i / bs + 1) * bs := (Nat.div_lt_iff_lt_mul hbs).1 (Nat.lt_succ_self _)
  have hyle : j / bs * bs ≤ j := Nat.div_mul_le_self j bs
  have hylt : j < (j / bs + 1) * bs := (Nat.div_lt_iff_lt_mul hbs).1 (Nat.lt_succ_self _)
  rw [add_one_mul] at hxlt hylt
  unfold Tile.contains
  simp only
  omega

/-- The visiting order of the block loop: strictly later row, or same row
and strictly greater column. -/
def tileBefore (a b : Tile) : Prop :=
  a.y < b.y ∨ (a.y = b.y ∧ a.x < b.x)

lemma pyRange_pairwise {stop step : Nat} (hs : 0 < step) :
    List.Pairwise (· < ·) (pyRange stop step) :=
  List.Pairwise.map _ (fun _ _ h => Nat.mul_lt_mul_of_lt_of_le h le_rfl hs)
    (List.pairwise_lt_range _)

lemma tiles_row_major {cols rows bs : Nat} (hbs : 0 < bs) :
    List.Pairwise tileBefore (tiles cols rows bs) := by
  unfold tiles
  rw [List.pairwise_flatMap]
  constructor
  · intro y _
    refine List.Pairwise.map _ (fun a b h => ?_) (pyRange_pairwise hbs)
    exact Or.inr ⟨rfl, h⟩
  · refine List.Pairwise.imp ?_ (pyRange_pairwise hbs)
    intro y1 y2 hlt t1 ht1 t2 ht2
    simp only [List.mem_map] at ht1 ht2
    obtain ⟨x1, _, rfl⟩ := ht1
    obtain ⟨x2, _, rfl⟩ := ht2
    exact Or.inl hlt

/-! ### Properties of the block loops -/

lemma readWindow_of_le {α : Type} {r : SrcRaster α} {x y w h : Nat}
    (hx : x + w ≤ r.cols) (hy : y + h ≤ r.rows) :
    readWindow r x y w h = some (fun i j => r.pix (x + i) (y + j)) := by
  unfold readWindow
  rw [if_pos ⟨hx, hy⟩]

lemma sumLoop_ok {rasters : List (SrcRaster Int)} {t : Tile}
    (h : ∀ r ∈ rasters, t.x + t.w ≤ r.cols ∧ t.y + t.h ≤ r.rows)
    (acc : Nat → Nat → Nat) :
    exceptOk (sumLoop t acc rasters) = true := by
  induction rasters generalizing acc with
  | nil => rfl
  | cons r rest ih =>
    unfold sumLoop
    rw [readWindow_of_le (h r (List.mem_cons_self r rest)).1
      (h r (List.mem_cons_self r rest)).2]
    exact ih (fun s hs => h s (List.mem_cons_of_mem _ hs)) _

lemma sumTile_ok {rasters : List (SrcRaster Int)} {t : Tile}
    (h : ∀ r ∈ rasters, t.x + t.w ≤ r.cols ∧ t.y + t.h ≤ r.rows) :
    exceptOk (sumTile rasters t) = true :=
  sumLoop_ok h _

lemma monthlyLoop_eq_sum {t : Tile} {rasters : List (SrcRaster ℚ)}
    (h : ∀ r ∈ rasters, t.x + t.w ≤ r.cols ∧ t.y + t.h ≤ r.rows)
    (acc : Nat → Nat → ℚ) :
    monthlyLoop t acc rasters = .ok (fun i j => acc i j +
      (rasters.map (fun r =>
        freqContrib r.nodata (r.pix (t.x + i) (t.y + j)))).sum) := by
  induction rasters generalizing acc with
  | nil =>
    unfold monthlyLoop
    simp only [List.map_nil, List.sum_nil, add_zero]
  | cons r rest ih =>
    unfold monthlyLoop
    rw [readWindow_of_le (h r (List.mem_cons_self r rest)).1
      (h r (List.mem_cons_self r rest)).2]
    show monthlyLoop t
      (fun i j => acc i j + freqContrib r.nodata (r.pix (t.x + i) (t.y + j))) rest = _
    rw [ih (fun s hs => h s (List.mem_cons_of_mem _ hs))]
    congr 1
    funext i j
    simp [add_assoc]

/-- With every window in range, the monthly block loop computes, at each
pixel, the sum of every contributing raster's (nodata-masked) value. -/
lemma monthlyTile_eq_sum {rasters : List (SrcRaster ℚ)} {t : Tile}
    (h : ∀ r ∈ rasters, t.x + t.w ≤ r.cols ∧ t.y + t.h ≤ r.rows) :
    monthlyTile rasters t = .ok (fun i j =>
      (rasters.map (fun r =>
        freqContrib r.nodata (r.pix (t.x + i) (t.y + j)))).sum) := by
  unfold monthlyTile
  rw [monthlyLoop_eq_sum h]
  congr 1
  funext i j
  simp

/-- The seasonal block loop is the monthly block loop of the present
contributors: a `None` placeholder executes `block_sum += 0`, which
leaves the accumulator unchanged. -/
lemma seasonalLoop_eq_monthlyLoop (files : List (Option (SrcRaster ℚ)))
    (t : Tile) (acc : Nat → Nat → ℚ) :
    seasonalLoop t acc files = monthlyLoop t acc (files.filterMap id) := by
  induction files generalizing acc with
  | nil => rfl
  | cons of rest ih =>
    cases of with
    | none =>
      show seasonalLoop t (fun i j => acc i j + 0) rest = _
      have hz : (fun i j => acc i j + 0) = acc := by
        funext i j; rw [add_zero]
      rw [hz, show List.filterMap id (none :: rest) = List.filterMap id rest from rfl]
      exact ih acc
    | some r =>
      rw [show List.filterMap id (some r :: rest) = r :: List.filterMap id rest from rfl]
      unfold seasonalLoop monthlyLoop
      cases hrw : readWindow r t.x t.y t.w t.h with
      | none => rfl
      | some data => exact ih _

lemma seasonalTile_eq_monthlyTile (files : List (Option (SrcRaster ℚ))) (t : Tile) :
    seasonalTile files t = monthlyTile (files.filterMap id) t :=
  seasonalLoop_eq_monthlyLoop files t _

/-! ### Properties of the whole runs -/

lemma exceptOk_map {ε α β : Type} (f : α → β) (e : Except ε α) :
    exceptOk (Except.map f e) = exceptOk e := by
  cases e <;> rfl

lemma sumWriteLoop_ok {dt : OutDType} {rasters : List (SrcRaster Int)}
    {ts : List Tile} (ws : List (Tile × (Nat → Nat → Int)))
    (h : ∀ t ∈ ts, exceptOk (sumTile rasters t) = true) :
    exceptOk (sumWriteLoop dt rasters ws ts) = true := by
  induction ts generalizing ws with
  | nil => rfl
  | cons t ts ih =>
    unfold sumWriteLoop
    have ht := h t (List.mem_cons_self t ts)
    cases hft : sumTile rasters t with
    | error e => rw [hft] at ht; simp [exceptOk] at ht
    | ok acc => exact ih _ (fun s hs => h s (List.mem_cons_of_mem _ hs))

/-- Contributors at least as large as the reference raster never make a
read fail, so the summation run completes — whatever their geotransform
or projection. -/
lemma runSummation_ok {dt : OutDType} {c : Nat → Bool}
    {r0 : SrcRaster Int} {rs : List (SrcRaster Int)}
    (h : ∀ r ∈ r0 :: rs, r0.cols ≤ r.cols ∧ r0.rows ≤ r.rows) :
    exceptOk (runSummation dt c (r0 :: rs)) = true := by
  unfold runSummation
  rw [exceptOk_map]
  refine sumWriteLoop_ok [] (fun t ht => sumTile_ok (fun r hr => ?_))
  have hb := tiles_bounds (show 0 < 512 by norm_num) ht
  have hr2 := h r hr
  omega

lemma sumWriteLoop_writes_fst {dt : OutDType} {rasters : List (SrcRaster Int)}
    {ts : List Tile} {ws0 ws : List (Tile × (Nat → Nat → Int))}
    (h : sumWriteLoop dt rasters ws0 ts = .ok ws) :
    ws.map Prod.fst = ws0.map Prod.fst ++ ts := by
  induction ts generalizing ws0 with
  | nil =>
    unfold sumWriteLoop at h
    cases h
    simp
  | cons t ts ih =>
    unfold sumWriteLoop at h
    cases hft : sumTile rasters t with
    | error e => rw [hft] at h; cases h
    | ok acc =>
      rw [hft] at h
      rw [ih h]
      simp

lemma sumWriteLoop_writes_spec {dt : OutDType} {rasters : List (SrcRaster Int)}
    {ts : List Tile} {ws0 ws : List (Tile × (Nat → Nat → Int))}
    (h : sumWriteLoop dt rasters ws0 ts = .ok ws) :
    ∀ wr ∈ ws, wr ∈ ws0 ∨ ∃ acc, sumTile rasters wr.1 = .ok acc ∧
      wr.2 = fun i j => castOut dt (acc i j) := by
  induction ts generalizing ws0 with
  | nil =>
    unfold sumWriteLoop at h
    cases h
    exact fun wr hwr => Or.inl hwr
  | cons t ts ih =>
    unfold sumWriteLoop at h
    cases hft : sumTile rasters t with
    | error e => rw [hft] at h; cases h
    | ok acc =>
      rw [hft] at h
      intro wr hwr
      rcases ih h wr hwr with hmem | hspec
      · rcases List.mem_append.1 hmem with h1 | h2
        · exact Or.inl h1
        · rcases List.mem_singleton.1 h2 with rfl
          exact Or.inr ⟨acc, hft, rfl⟩
      · exact Or.inr hspec

lemma runSummation_ok_inv {dt : OutDType} {c : Nat → Bool}
    {rasters : List (SrcRaster Int)} {o : SumRun}
    (h : runSummation dt c rasters = .ok o) :
    ∃ r0 rs, rasters = r0 :: rs ∧ o.cols = r0.cols ∧ o.rows = r0.rows ∧
      sumWriteLoop dt rasters [] (tiles r0.cols r0.rows 512) = .ok o.writes := by
  cases rasters with
  | nil => cases h
  | cons r0 rs =>
    have h2 : Except.map
        (fun ws => SumRun.mk r0.cols r0.rows r0.geo r0.proj ws)
        (sumWriteLoop dt (r0 :: rs) [] (tiles r0.cols r0.rows 512)) = .ok o := h
    cases hw : sumWriteLoop dt (r0 :: rs) [] (tiles r0.cols r0.rows 512) with
    | error e => rw [hw] at h2; cases h2
    | ok ws =>
      rw [hw] at h2
      cases h2
      exact ⟨r0, rs, rfl, rfl, rfl, hw⟩

/-! ### Concrete rasters for the closed counterexample runs -/

/-- A concrete geotransform. -/
def geoA : ℚ × ℚ × ℚ × ℚ × ℚ × ℚ := (0, 1, 0, 0, 0, -1)

/-- A different concrete geotransform. -/
def geoB : ℚ × ℚ × ℚ × ℚ × ℚ × ℚ := (5, 1, 0, 5, 0, -1)

/-- A 1x1 reference raster. -/
def rRef : SrcRaster Int := ⟨1, 1, geoA, "EPSG:32644", none, fun _ _ => 1⟩

/-- A 1x1 raster with a projection and geotransform differing from
`rRef`'s. -/
def rBadProj : SrcRaster Int := ⟨1, 1, geoB, "EPSG:4326", none, fun _ _ => 2⟩

/-- A 2x1 raster. -/
def rBig : SrcRaster Int := ⟨2, 1, geoA, "EPSG:32644", none, fun _ _ => 1⟩

/-- A 1x1026 raster: three 512-tile-rows tall. -/
def rTall : SrcRaster Int := ⟨1, 1026, geoA, "EPSG:32644", none, fun _ _ => 1⟩

/-- A 1x1 float-band raster. -/
def rQ : SrcRaster ℚ := ⟨1, 1, geoA, "EPSG:32644", none, fun _ _ => 1⟩

lemma groupByMonth_go_const {inputs : List (String × SrcRaster ℚ)}
    (h : ∀ p ∈ inputs, classifyMonth p.1 = none) :
    ∀ m, inputs.foldl (fun m p =>
      match classifyMonth p.1 with
      | some k => addToBucket m k p.2
      | none => m) m = m := by
  induction inputs with
  | nil => intro m; rfl
  | cons p rest ih =>
    intro m
    rw [List.foldl_cons, h p (List.mem_cons_self p rest)]
    exact ih (fun s hs => h s (List.mem_cons_of_mem _ hs)) m

/-! ### Claim theorems -/

/-- C1 counterexample: in the flat-summation path a pixel whose stored
value equals the raster's declared nodata value −9999 is not
substituted with zero: the pixel is cast to `uint32` first (wrapping to
4294957297), the comparison with −9999 then fails, and the pixel
contributes 4294957297 to the tile accumulator — not zero. -/
theorem c1_counterexample :
    sumContrib (some (-9999)) (-9999) = 4294957297 ∧
    (0 + sumContrib (some (-9999)) (-9999)) % 4294967296 ≠ 0 := by
  constructor <;> decide

/-- C1 amended: a pixel equal to the declared nodata value contributes
exactly zero in the monthly and seasonal paths for every nodata value;
in the flat-summation path the pixel is cast to `uint32` before the
comparison, so zero is substituted exactly when the wrapped pixel
equals the declared nodata value (hence never for negative or
non-integer nodata, unless the wrapped pixel is already zero) — in
particular it does hold whenever the pixel is non-negative and below
2^32. -/
theorem c1_amended :
    (∀ q : ℚ, freqContrib (some q) q = 0) ∧
    (∀ (q : ℚ) (v : Int),
      sumContrib (some q) v = 0 ↔ ((toU32 v : ℚ) = q ∨ toU32 v = 0)) ∧
    (∀ (q : ℚ) (v : Int), 0 ≤ v → v < 4294967296 → (v : ℚ) = q →
      sumContrib (some q) v = 0) := by
  refine ⟨fun q => by simp [freqContrib], fun q v => ?_, fun q v h0 hlt hq => ?_⟩
  · show (if ((toU32 v : ℚ)) = q then (0 : Nat) else toU32 v) = 0 ↔ _
    split_ifs with h
    · simp [h]
    · simp [h]
  · have hu : toU32 v = v.toNat := by
      unfold toU32
      rw [Int.emod_eq_of_lt h0 hlt]
    have hq2 : ((toU32 v : Nat) : ℚ) = q := by
      rw [hu, ← hq]
      exact_mod_cast congrArg (fun z : Int => (z : ℚ)) (Int.toNat_of_nonneg h0)
    show (if ((toU32 v : ℚ)) = q then (0 : Nat) else toU32 v) = 0
    rw [if_pos hq2]

/-- C1 witness: an in-range nodata value is substituted with zero in the
flat-summation path. -/
theorem c1_amended_witness : sumContrib (some 7) 7 = 0 :=
  c1_amended.2.2 7 7 (by norm_num) (by norm_num) (by norm_num)

/-- C2 counterexample: two 1x1 contributors with different projection and
different geotransform — the summation run completes and writes its
tile; no error is raised for the mismatch. -/
theorem c2_counterexample :
    rRef.proj ≠ rBadProj.proj ∧ rRef.geo ≠ rBadProj.geo ∧
    rRef.cols = rBadProj.cols ∧ rRef.rows = rBadProj.rows ∧
    exceptOk (runSummation .float32 (fun _ => false) [rRef, rBadProj]) = true ∧
    sumWriteCount (runSummation .float32 (fun _ => false) [rRef, rBadProj]) =
      some 1 := by
  refine ⟨by decide, by decide, rfl, rfl, by decide, by decide⟩

/-- C2 amended: no consistency validation exists. Every contributor whose
grid is at least as large as the reference raster's is accepted
silently, whatever its geotransform and projection; only a contributor
too small for some tile window makes the run fail, through the failed
windowed read itself. -/
theorem c2_amended :
    (∀ (dt : OutDType) (c : Nat → Bool) (r0 : SrcRaster Int)
      (rs : List (SrcRaster Int)),
      (∀ r ∈ r0 :: rs, r0.cols ≤ r.cols ∧ r0.rows ≤ r.rows) →
      exceptOk (runSummation dt c (r0 :: rs)) = true) ∧
    exceptOk (runSummation .float32 (fun _ => false) [rBig, rRef]) = false :=
  ⟨fun _ _ _ _ h => runSummation_ok h, by decide⟩

/-- C2 witness: a homogeneous pair of contributors runs to completion. -/
theorem c2_amended_witness :
    exceptOk (runSummation .float32 (fun _ => false) [rRef, rRef]) = true :=
  c2_amended.1 .float32 (fun _ => false) rRef [rRef] (by decide)

/-- C3 counterexample: with the cancellation signal raised from the second
poll opportunity on (cancelled right after the first of the three
tile-rows of a 1x1026 grid), the summation run still writes all three
tile-rows — not one — and terminates as completed, not cancelled. -/
theorem c3_counterexample :
    sumWriteCount (runSummation .float32 (fun k => decide (1 ≤ k)) [rTall]) =
      some 3 ∧
    sumWriteCount (runSummation .float32 (fun k => decide (1 ≤ k)) [rTall]) ≠
      some 1 ∧
    exceptOk (runSummation .float32 (fun k => decide (1 ≤ k)) [rTall]) = true := by
  refine ⟨by decide, by decide, by decide⟩

/-- C3 amended: the block loop never polls the cancellation signal: the
run's outcome does not depend on the signal at all, and a successful
run always writes every tile of the partition, in the loop's order. -/
theorem c3_no_cancellation_poll :
    (∀ (dt : OutDType) (c : Nat → Bool) (rasters : List (SrcRaster Int)),
      runSummation dt c rasters = runSummation dt (fun _ => false) rasters) ∧
    (∀ (dt : OutDType) (c : Nat → Bool) (rasters : List (SrcRaster Int))
      (o : SumRun),
      runSummation dt c rasters = .ok o →
      o.writes.map Prod.fst = tiles o.cols o.rows 512) := by
  refine ⟨fun dt c rasters => rfl, fun dt c rasters o h => ?_⟩
  obtain ⟨r0, rs, rfl, hcols, hrows, hw⟩ := runSummation_ok_inv h
  rw [hcols, hrows]
  simpa using sumWriteLoop_writes_fst hw

/-- C3 witness: a concrete run with the signal permanently raised writes
exactly the tile partition of its 1x1 grid. -/
theorem c3_no_cancellation_poll_witness :
    (runSummation .float32 (fun _ => true) [rRef]).toOption.map
      (fun o => o.writes.map Prod.fst) = some (tiles 1 1 512) := by
  have hok : exceptOk (runSummation .float32 (fun _ => true) [rRef]) = true := by
    decide
  cases hr : runSummation .float32 (fun _ => true) [rRef] with
  | error e => rw [hr] at hok; simp [exceptOk] at hok
  | ok o =>
    have h2 := c3_no_cancellation_poll.2 .float32 (fun _ => true) [rRef] o hr
    obtain ⟨r0, rs, heq, hcols, hrows, _⟩ := runSummation_ok_inv hr
    cases heq
    show Option.map _ (Except.toOption (Except.ok o)) = _
    rw [show Except.toOption (Except.ok o) = some o from rfl]
    rw [Option.map_some', h2, hcols, hrows]
    rfl

/-- C6 counterexample: the monthly pipeline, given zero qualifying
rasters, terminates successfully with zero outputs instead of raising a
fatal no-input error. -/
theorem c6_counterexample :
    runMonthly (fun _ => false) [] = .ok [] ∧
    exceptOk (runMonthly (fun _ => false) []) = true :=
  ⟨rfl, rfl⟩

/-- C6 amended: only the flat summation raises on an empty input set; the
monthly run completes successfully, producing nothing, when the input
list is empty or no file classifies to a month. -/
theorem c6_amended :
    (∀ (dt : OutDType) (c : Nat → Bool),
      runSummation dt c [] =
        .error "No TIFF files found under the input folder.") ∧
    (∀ c : Nat → Bool, runMonthly c [] = .ok []) ∧
    (∀ (c : Nat → Bool) (inputs : List (String × SrcRaster ℚ)),
      (∀ p ∈ inputs, classifyMonth p.1 = none) →
      runMonthly c inputs = .ok []) := by
  refine ⟨fun dt c => rfl, fun c => rfl, fun c inputs h => ?_⟩
  unfold runMonthly
  rw [show groupByMonth inputs = [] from groupByMonth_go_const h []]
  rfl

/-- C6 witness: a run whose only file has no date token in its name
completes successfully with no outputs. -/
theorem c6_amended_witness :
    runMonthly (fun _ => false) [("nodate.tif", rQ)] = .ok [] :=
  c6_amended.2.2 (fun _ => false) [("nodate.tif", rQ)]
    (fun p hp => by rcases List.mem_singleton.1 hp with rfl; decide)

/-- C4: season-year rollover. For every season with a non-empty ordered
month list, an observation of month `m` in year `y` buckets into
season-year `y` when the numeric month is at least the season's first
month, and into season-year `y − 1` otherwise; in particular for
"DJF" = [12, 01, 02], (2023, 01) lands in 2022 and (2023, 12) in 2023. -/
theorem c4_season_year_rollover :
    (∀ (sn first : String) (rest : List String) (y : Nat) (m f : String),
      m ∈ first :: rest →
      buildSeasonRasterMap [(sn, first :: rest)] [(y, m, f)] =
        [((if digitsToNat first ≤ digitsToNat m then (y : Int) else (y : Int) - 1,
            sn), [(y, m, f)])]) ∧
    buildSeasonRasterMap [("DJF", ["12", "01", "02"])] [(2023, "01", "a.tif")] =
      [((2022, "DJF"), [(2023, "01", "a.tif")])] ∧
    buildSeasonRasterMap [("DJF", ["12", "01", "02"])] [(2023, "12", "b.tif")] =
      [((2023, "DJF"), [(2023, "12", "b.tif")])] := by
  refine ⟨fun sn first rest y m f hm => ?_, by decide, by decide⟩
  unfold buildSeasonRasterMap
  rw [List.foldl_cons, List.foldl_nil, List.foldl_cons, List.foldl_nil]
  rw [if_pos hm]
  simp [assignSeasonYear, addToBucket, ge_iff_le]

/-- C4 witness: the rollover rule applied to a single January 2023
observation of the user-defined season DJF. -/
theorem c4_season_year_rollover_witness :
    buildSeasonRasterMap [("DJF", ["12", "01", "02"])] [(2023, "01", "a.tif")] =
      [((if digitsToNat "12" ≤ digitsToNat "01" then (2023 : Int)
          else (2023 : Int) - 1, "DJF"), [(2023, "01", "a.tif")])] :=
  c4_season_year_rollover.1 "DJF" "12" ["01", "02"] 2023 "01" "a.tif" (by decide)

/-- C5: gap filling. The final contributor list has exactly one slot per
season month whatever the data completeness; the seasonal block loop
with `None` placeholders equals the monthly block loop over just the
present contributors, so a missing month contributes exactly zero and
leaves the present months' contributions unchanged — with all windows
in range, each pixel is exactly the sum of the present contributions. -/
theorem c5_missing_month_slots :
    (∀ (months : List String) (mf : List Obs),
      (buildFinalFiles months mf).length = months.length) ∧
    (∀ (files : List (Option (SrcRaster ℚ))) (t : Tile),
      seasonalTile files t = monthlyTile (files.filterMap id) t) ∧
    (∀ (files : List (Option (SrcRaster ℚ))) (t : Tile),
      (∀ r ∈ files.filterMap id, t.x + t.w ≤ r.cols ∧ t.y + t.h ≤ r.rows) →
      seasonalTile files t = .ok (fun i j =>
        ((files.filterMap id).map (fun r =>
          freqContrib r.nodata (r.pix (t.x + i) (t.y + j)))).sum)) := by
  refine ⟨fun months mf => by simp [buildFinalFiles],
    fun files t => seasonalTile_eq_monthlyTile files t, fun files t h => ?_⟩
  rw [seasonalTile_eq_monthlyTile, monthlyTile_eq_sum h]

/-- C5 witness: one present and one missing slot on a 1x1 tile. -/
theorem c5_missing_month_slots_witness :
    seasonalTile [some rQ, none] ⟨0, 0, 1, 1⟩ = .ok (fun i j =>
      (([some rQ, none].filterMap id).map (fun r =>
        freqContrib r.nodata (r.pix (0 + i) (0 + j)))).sum) :=
  c5_missing_month_slots.2.2 [some rQ, none] ⟨0, 0, 1, 1⟩ (by decide)

/-- C7: for every grid of width ≥ 1 and height ≥ 1 and tile edge ≥ 1, the
block loop's tile list partitions the grid: every tile is non-empty, at
most the edge size in each direction, and inside the grid; every grid
pixel lies in some tile; two tiles sharing a pixel are equal; and the
list is in row-major visiting order. -/
theorem c7_tile_partition (cols rows bs : Nat)
    (hc : 1 ≤ cols) (hr : 1 ≤ rows) (hb : 1 ≤ bs) :
    (∀ t ∈ tiles cols rows bs,
      0 < t.w ∧ 0 < t.h ∧ t.w ≤ bs ∧ t.h ≤ bs ∧
      t.x + t.w ≤ cols ∧ t.y + t.h ≤ rows) ∧
    (∀ i j, i < cols → j < rows → ∃ t ∈ tiles cols rows bs, t.contains i j) ∧
    (∀ t1 ∈ tiles cols rows bs, ∀ t2 ∈ tiles cols rows bs,
      ∀ i j, t1.contains i j → t2.contains i j → t1 = t2) ∧
    List.Pairwise tileBefore (tiles cols rows bs) := by
  refine ⟨fun t ht => ?_, fun i j hi hj => tiles_cover hb hi hj,
    fun t1 h1 t2 h2 i j hc1 hc2 => tiles_disjoint hb h1 h2 hc1 hc2,
    tiles_row_major hb⟩
  have hB := tiles_bounds hb ht
  tauto

/-- C7 witness: the partition properties at a concrete 3x5 grid with tile
edge 2. -/
theorem c7_tile_partition_witness :
    (1 ≤ 3 ∧ 1 ≤ 5 ∧ 1 ≤ 2) ∧
    ((∀ t ∈ tiles 3 5 2,
      0 < t.w ∧ 0 < t.h ∧ t.w ≤ 2 ∧ t.h ≤ 2 ∧
      t.x + t.w ≤ 3 ∧ t.y + t.h ≤ 5) ∧
    (∀ i j, i < 3 → j < 5 → ∃ t ∈ tiles 3 5 2, t.contains i j) ∧
    (∀ t1 ∈ tiles 3 5 2, ∀ t2 ∈ tiles 3 5 2,
      ∀ i j, t1.contains i j → t2.contains i j → t1 = t2) ∧
    List.Pairwise tileBefore (tiles 3 5 2)) :=
  ⟨⟨by decide, by decide, by decide⟩,
    c7_tile_partition 3 5 2 (by decide) (by decide) (by decide)⟩

/-- C8: the final per-tile cast saturates to the output type's range
(300 cast to unsigned 8-bit yields 255, not the wrapped 44); values in
range pass through unchanged, values above the maximum clamp to it, and
the floating output types cast without clamping; moreover, in the
summation run every written tile is exactly the uint32-accumulated tile
passed once through this cast. -/
theorem c8_saturating_cast :
    (castOut .byte 300 = 255 ∧ (300 : Nat) % 256 = 44 ∧ castOut .byte 300 ≠ 44) ∧
    (∀ v : Nat,
      (v ≤ 255 → castOut .byte v = v) ∧ (255 < v → castOut .byte v = 255) ∧
      (v ≤ 65535 → castOut .uint16 v = v) ∧
      (65535 < v → castOut .uint16 v = 65535) ∧
      (v ≤ 4294967295 → castOut .uint32 v = v) ∧
      (4294967295 < v → castOut .uint32 v = 4294967295) ∧
      (v ≤ 32767 → castOut .int16 v = v) ∧
      (32767 < v → castOut .int16 v = 32767) ∧
      (v ≤ 2147483647 → castOut .int32 v = v) ∧
      (2147483647 < v → castOut .int32 v = 2147483647) ∧
      castOut .float32 v = v ∧ castOut .float64 v = v) ∧
    (∀ (dt : OutDType) (c : Nat → Bool) (rasters : List (SrcRaster Int))
      (o : SumRun),
      runSummation dt c rasters = .ok o →
      ∀ wr ∈ o.writes, ∃ acc, sumTile rasters wr.1 = .ok acc ∧
        wr.2 = fun i j => castOut dt (acc i j)) := by
  refine ⟨⟨by decide, by decide, by decide⟩, fun v => ?_, fun dt c rasters o h => ?_⟩
  · refine ⟨fun h => ?_, fun h => ?_, fun h => ?_, fun h => ?_, fun h => ?_,
      fun h => ?_, fun h => ?_, fun h => ?_, fun h => ?_, fun h => ?_, ?_, ?_⟩ <;>
      · simp only [castOut]
        try omega
  · obtain ⟨r0, rs, rfl, _, _, hw⟩ := runSummation_ok_inv h
    intro wr hwr
    rcases sumWriteLoop_writes_spec hw wr hwr with hmem | hspec
    · exact absurd hmem (List.not_mem_nil wr)
    · exact hspec

/-- C8 witness: in-range and above-range casts at concrete accumulated
values. -/
theorem c8_saturating_cast_witness :
    castOut .byte 100 = 100 ∧ castOut .int16 40000 = 32767 :=
  ⟨(c8_saturating_cast.2.1 100).1 (by norm_num),
    ((c8_saturating_cast.2.1 40000).2.2.2.2.2.2.2.1 (by norm_num))⟩

lemma searchDate_eq_none_iff (cs : List Char) :
    searchDate cs = none ↔ ∀ i, matchDateAt (cs.drop i) = none := by
  induction cs with
  | nil =>
    exact iff_of_true rfl (fun i => by rw [List.drop_nil]; rfl)
  | cons c rest ih =>
    constructor
    · intro h i
      unfold searchDate at h
      cases hm : matchDateAt (c :: rest) with
      | some ym => rw [hm] at h; cases h
      | none =>
        rw [hm] at h
        cases i with
        | zero => exact hm
        | succ k => exact (ih.1 h) k
    · intro h
      unfold searchDate
      have h0 := h 0
      rw [show (c :: rest).drop 0 = c :: rest from rfl] at h0
      rw [h0]
      exact ih.2 (fun i => h (i + 1))

lemma searchDate_leftmost {cs : List Char} {i : Nat} {y m : String}
    (hm : matchDateAt (cs.drop i) = some (y, m))
    (hnone : ∀ j, j < i → matchDateAt (cs.drop j) = none) :
    searchDate cs = some (y, m) := by
  induction cs generalizing i with
  | nil =>
    rw [List.drop_nil] at hm
    exact Option.noConfusion hm
  | cons c rest ih =>
    cases i with
    | zero =>
      unfold searchDate
      rw [show (c :: rest).drop 0 = c :: rest from rfl] at hm
      rw [hm]
    | succ k =>
      unfold searchDate
      have h0 := hnone 0 (Nat.succ_pos k)
      rw [show (c :: rest).drop 0 = c :: rest from rfl] at h0
      rw [h0]
      exact ih (i := k) hm (fun j hj => hnone (j + 1) (Nat.succ_lt_succ hj))

/-- C9: the monthly classifier. The three scenario filenames classify to
"01", "01" and "02"; a filename classifies to `none` exactly when no
position of it starts a date-shaped substring; when a position does,
the leftmost one determines the month key deterministically; and an
unclassified file is simply left out of the month grouping (processing
continues, nothing is raised). -/
theorem c9_monthly_classification :
    (classifyMonth "flood_2021-01-15.tif" = some "01" ∧
     classifyMonth "flood_2021-01-28.tif" = some "01" ∧
     classifyMonth "flood_2021-02-01.tif" = some "02") ∧
    (∀ s : String, classifyMonth s = none ↔
      ∀ i, matchDateAt (s.data.drop i) = none) ∧
    (∀ (s : String) (i : Nat) (y m : String),
      matchDateAt (s.data.drop i) = some (y, m) →
      (∀ j, j < i → matchDateAt (s.data.drop j) = none) →
      classifyMonth s = some m) ∧
    (∀ (inputs : List (String × SrcRaster ℚ)) (f : String) (r : SrcRaster ℚ),
      classifyMonth f = none →
      groupByMonth ((f, r) :: inputs) = groupByMonth inputs) := by
  refine ⟨⟨by decide, by decide, by decide⟩, fun s => ?_, fun s i y m hm hnone => ?_,
    fun inputs f r h => ?_⟩
  · unfold classifyMonth
    rw [Option.map_eq_none']
    exact searchDate_eq_none_iff s.data
  · unfold classifyMonth
    rw [searchDate_leftmost hm hnone]
    rfl
  · unfold groupByMonth
    rw [List.foldl_cons, h]

/-- C9 witness: the leftmost-match rule applied at the concrete position 6
of a concrete filename. -/
theorem c9_monthly_classification_witness :
    classifyMonth "flood_2021-03-05.tif" = some "03" :=
  c9_monthly_classification.2.2.1 "flood_2021-03-05.tif" 6 "2021" "03"
    (by decide) (by decide)

/-- C10: in the seasonal pipeline each month slot takes only the first
file of the bucket's list whose month matches (later files for the same
month change nothing), whereas the monthly pipeline's block loop sums
the contribution of every raster in the month's list. -/
theorem c10_duplicate_month_files :
    (∀ (months : List String) (a b : Obs) (rest : List Obs),
      a.2.1 = b.2.1 →
      buildFinalFiles months (a :: b :: rest) =
        buildFinalFiles months (a :: rest)) ∧
    buildFinalFiles ["01"] [(2021, "01", "a.tif"), (2021, "01", "b.tif")] =
      [some "a.tif"] ∧
    (∀ (rasters : List (SrcRaster ℚ)) (t : Tile),
      (∀ r ∈ rasters, t.x + t.w ≤ r.cols ∧ t.y + t.h ≤ r.rows) →
      monthlyTile rasters t = .ok (fun i j =>
        (rasters.map (fun r =>
          freqContrib r.nodata (r.pix (t.x + i) (t.y + j)))).sum)) := by
  refine ⟨fun months a b rest hab => ?_, by decide,
    fun rasters t h => monthlyTile_eq_sum h⟩
  unfold buildFinalFiles
  refine List.map_congr_left (fun m _ => ?_)
  by_cases hma : a.2.1 = m
  · rw [List.find?_cons_of_pos _ (by simp [hma]),
      List.find?_cons_of_pos _ (by simp [hma])]
  · have hb : ¬ b.2.1 = m := fun hbm => hma (hab.trans hbm)
    rw [List.find?_cons_of_neg _ (by simpa using hma),
      List.find?_cons_of_neg _ (by simpa using hb),
      List.find?_cons_of_neg _ (by simpa using hma)]

/-- C10 witness: dropping the second file of a duplicated month leaves the
final slot list unchanged. -/
theorem c10_duplicate_month_files_witness :
    buildFinalFiles ["01", "02"]
        [(2021, "01", "a.tif"), (2021, "01", "b.tif"), (2021, "02", "c.tif")] =
      buildFinalFiles ["01", "02"]
        [(2021, "01", "a.tif"), (2021, "02", "c.tif")] :=
  c10_duplicate_month_files.1 ["01", "02"] (2021, "01", "a.tif")
    (2021, "01", "b.tif") [(2021, "02", "c.tif")] rfl

end RiskMapper
